import Mathlib

/-!
Shallow embedding of the react-devtools Agent (src/agent/Agent.js) and proofs
about its identity registry, element store, event emission and command
dispatch behaviour.

Modelling conventions:
- An opaque JS object is identified by its reference, a natural number.
- JS Maps are embedded as association lists with replace-or-append update,
  preserving insertion order; the WeakMap `ids` is keyed by object reference.
- `guid()` (src/utils/guid.js, not part of the provided sources) is
  modelled from the spec: it allocates a fresh, never-repeating token,
  embedded as a monotone counter `nextGuid`.
- Side effects (EventEmitter emissions, console warnings and logs, updater
  capability invocations) are collected in an explicit event list.
-/

namespace Devtools

/-- JS primitive values relevant to the agent (undefined, null, booleans,
numbers, strings other than guid tokens). -/
inductive Prim where
  | undef
  | null
  | bool (b : Bool)
  | num (n : Int)
  | str (s : String)
deriving DecidableEq

/-- A value in a handle position: a live object reference, a guid token
string produced by the identity registry, or a primitive.  `typeof` of an
`obj` is "object" and it is truthy; `tok` is a (nonempty) string; `prim`
covers the rest, including null (typeof "object" but falsy). -/
inductive Handle where
  | obj (r : Nat)
  | tok (n : Nat)
  | prim (p : Prim)
deriving DecidableEq

/-- JS truthiness of a primitive. -/
def Prim.truthy : Prim → Bool
  | Prim.undef => false
  | Prim.null => false
  | Prim.bool b => b
  | Prim.num n => decide (n ≠ 0)
  | Prim.str s => decide (s ≠ "")

/-- JS truthiness of a handle-position value. -/
def Handle.truthy : Handle → Bool
  | Handle.obj _ => true
  | Handle.tok _ => true
  | Handle.prim p => p.truthy

/-- Whether the value is a raw object handle (a live object reference, as
opposed to an Identity token or a primitive pass-through identity). -/
def Handle.isObj : Handle → Bool
  | Handle.obj _ => true
  | _ => false

/-- JS object/array values, used for the snapshot fields that `getIn`
walks (props, state, context and the snapshot object itself). -/
inductive JVal where
  | undef
  | null
  | vbool (b : Bool)
  | vnum (n : Int)
  | vstr (s : String)
  | vobj (fs : List (String × JVal))
  | varr (xs : List JVal)

/-- JS truthiness of a JVal. -/
def JVal.truthy : JVal → Bool
  | JVal.undef => false
  | JVal.null => false
  | JVal.vbool b => b
  | JVal.vnum n => decide (n ≠ 0)
  | JVal.vstr s => decide (s ≠ "")
  | JVal.vobj _ => true
  | JVal.varr _ => true

/-- The updater capability record supplied by the producer in raw data.
Each field records whether the corresponding callback slot is present
(JS presence/truthiness of the function-valued field). -/
structure Updater where
  setInProps : Bool
  setInState : Bool
  setInContext : Bool
  forceUpdate : Bool
deriving DecidableEq

/-- The raw `DataType` record a producer passes to `onMounted`/`onUpdated`.
`publicInstance` and `type` are opaque object references; `children` is
either absent (or a non-array value, which the agent skips) or an array of
handle-position values (raw object handles, strings, other primitives). -/
structure DataType where
  name : Prim
  props : JVal
  state : JVal
  context : JVal
  publicInstance : Option Nat
  children : Option (List Handle)
  updater : Option Updater
  type : Option Nat

/-- The payload object emitted with `mount`/`update`: a shallow copy of the
raw data with children translated through `getId`, `id` and `canUpdate`
added, and `type`/`updater` deleted (modelled as forced to `none`). -/
structure SendPayload where
  name : Prim
  props : JVal
  state : JVal
  context : JVal
  publicInstance : Option Nat
  children : Option (List Handle)
  id : Handle
  canUpdate : Prim
  type : Option Nat
  updater : Option Updater

/-- Which console warning was printed.  The source's `_setContext` reuses
the "set state" message verbatim, so both map to `setStateUnsupported`. -/
inductive WarnMsg where
  | setPropsUnsupported
  | setStateUnsupported
deriving DecidableEq

/-- Observable effects of agent operations: EventEmitter emissions,
console output and producer updater invocations. -/
inductive Event where
  | root (id : Handle)
  | mount (p : SendPayload)
  | update (p : SendPayload)
  | unmount (id : Handle)
  | highlight (node : Nat) (name : Prim) (props : JVal)
  | highlightMany (nodes : List Nat)
  | refreshMultiOverlay
  | warn (w : WarnMsg)
  | consoleLog
  | callSetInProps (path : List String) (value : JVal)
  | callSetInState (path : List String) (value : JVal)
  | callSetInContext (path : List String) (value : JVal)

/-- Result of calling a producer's `getReactElementFromNative`: either the
call throws (including the property-access TypeError when the renderer has
no such function) or it returns a value. -/
inductive PRes where
  | throws
  | ret (h : Handle)

/-- A producer's helper record (`reactInternals[renderer]`): each lookup
function is optional.  `getNativeFromReactElement` maps a component
reference to a native node reference or null. -/
structure Helpers where
  getNativeFromReactElement : Option (Nat → Option Nat)
  getReactElementFromNative : Option (Nat → PRes)

/-- Association-list lookup (JS Map.get). -/
def alookup {α β : Type} [DecidableEq α] : List (α × β) → α → Option β
  | [], _ => none
  | p :: t, k => if p.1 = k then some p.2 else alookup t k

/-- Association-list update (JS Map.set): replace in place if the key is
present, append at the end otherwise, preserving insertion order. -/
def aset {α β : Type} [DecidableEq α] : List (α × β) → α → β → List (α × β)
  | [], k, v => [(k, v)]
  | p :: t, k, v => if p.1 = k then (k, v) :: t else p :: aset t k v

/-- Association-list deletion (JS Map.delete). -/
def adel {α β : Type} [DecidableEq α] : List (α × β) → α → List (α × β)
  | [], _ => []
  | p :: t, k => if p.1 = k then adel t k else p :: adel t k

/-- Set insertion (JS Set.add), preserving insertion order. -/
def sadd {α : Type} [DecidableEq α] (l : List α) (a : α) : List α :=
  if a ∈ l then l else l ++ [a]

/-- Set deletion (JS Set.delete). -/
def sdel {α : Type} [DecidableEq α] : List α → α → List α
  | [], _ => []
  | x :: t, a => if x = a then sdel t a else x :: sdel t a

/-- The Agent's mutable state: the identity registry (`ids`,
`reactElements`, `nextGuid`), the element store (`elementData`, `roots`,
`renderers`), the registered producer helpers (`reactInternals`), the
scroll-debounce flag and the `$tmp` global debugging slot. -/
structure AgentState where
  reactElements : List (Handle × Nat)
  ids : List (Nat × Handle)
  renderers : List (Handle × Nat)
  elementData : List (Handle × DataType)
  roots : List Handle
  reactInternals : List (Nat × Helpers)
  nextGuid : Nat
  scrollUpdate : Bool
  globalTmp : Option JVal

/-- The state right after the constructor runs: every map empty, the
scroll flag clear, no `$tmp` value. -/
def initialAgent : AgentState :=
  ⟨[], [], [], [], [], [], 0, false, none⟩

/-- `setReactInternals(renderer, helpers)` registers a producer. -/
def setReactInternals (s : AgentState) (renderer : Nat) (h : Helpers) : AgentState :=
  { s with reactInternals := aset s.reactInternals renderer h }

/-- `Agent.getId(element)`: if the value is not an object (or is null),
return it unchanged; otherwise look up or allocate its guid token,
recording both directions of the association. -/
def getId (s : AgentState) (element : Handle) : Handle × AgentState :=
  match element with
  | Handle.obj r =>
      match alookup s.ids r with
      | some i => (i, s)
      | none =>
          (Handle.tok s.nextGuid,
           { s with
               ids := aset s.ids r (Handle.tok s.nextGuid),
               reactElements := aset s.reactElements (Handle.tok s.nextGuid) r,
               nextGuid := s.nextGuid + 1 })
  | h => (h, s)

/-- `children.map(c => this.getId(c))`: left-to-right stateful map. -/
def getIds : AgentState → List Handle → List Handle × AgentState
  | s, [] => ([], s)
  | s, c :: cs =>
      ((getId s c).1 :: (getIds (getId s c).2 cs).1, (getIds (getId s c).2 cs).2)

/-- The `send.children` translation step: skipped when the raw children
field is absent, otherwise each entry is passed through `getId`. -/
def sendChildren (s : AgentState) (oc : Option (List Handle)) :
    Option (List Handle) × AgentState :=
  match oc with
  | none => (none, s)
  | some cs => (some (getIds s cs).1, (getIds s cs).2)

/-- `send.canUpdate = send.updater && !!send.updater.forceUpdate`: when the
updater is absent the JS `&&` short-circuits to `undefined`; otherwise the
result is the boolean coercion of `forceUpdate`. -/
def canUpdateOf : Option Updater → Prim
  | none => Prim.undef
  | some u => Prim.bool u.forceUpdate

/-- The outbound payload built by `onMounted`/`onUpdated`: raw fields
copied, children translated, `id`/`canUpdate` set, `type`/`updater`
deleted. -/
def buildPayload (id : Handle) (d : DataType) (mc : Option (List Handle)) : SendPayload :=
  ⟨d.name, d.props, d.state, d.context, d.publicInstance, mc, id,
   canUpdateOf d.updater, none, none⟩

/-- State portion of `onMounted`: record renderer attribution and store the
raw data object under the id. -/
def mountStore (s : AgentState) (renderer : Nat) (component : Handle) (d : DataType) :
    AgentState :=
  { (getId s component).2 with
      renderers := aset (getId s component).2.renderers (getId s component).1 renderer,
      elementData := aset (getId s component).2.elementData (getId s component).1 d }

/-- `Agent.onMounted(renderer, component, data)`. -/
def onMounted (s : AgentState) (renderer : Nat) (component : Handle) (d : DataType) :
    AgentState × List Event :=
  ((sendChildren (mountStore s renderer component d) d.children).2,
   [Event.mount (buildPayload (getId s component).1 d
      (sendChildren (mountStore s renderer component d) d.children).1)])

/-- State portion of `onUpdated`: store the raw data object under the id
(no renderer attribution update). -/
def updateStore (s : AgentState) (component : Handle) (d : DataType) : AgentState :=
  { (getId s component).2 with
      elementData := aset (getId s component).2.elementData (getId s component).1 d }

/-- `Agent.onUpdated(component, data)`. -/
def onUpdated (s : AgentState) (component : Handle) (d : DataType) :
    AgentState × List Event :=
  ((sendChildren (updateStore s component d) d.children).2,
   [Event.update (buildPayload (getId s component).1 d
      (sendChildren (updateStore s component d) d.children).1)])

/-- `Agent.addRoot(renderer, element)` (the renderer argument is unused by
the source). -/
def addRoot (s : AgentState) (renderer : Nat) (element : Handle) :
    AgentState × List Event :=
  (( { (getId s element).2 with roots := sadd (getId s element).2.roots (getId s element).1 } ),
   [Event.root (getId s element).1])

/-- State portion of `onUnmounted`: delete the snapshot, root membership
and renderer attribution for the id, then delete the handle from the
`ids` WeakMap (`WeakMap.delete` on a non-object key is a no-op).  The
`reactElements` map is not touched by the source. -/
def unmountState (s : AgentState) (component : Handle) : AgentState :=
  { (getId s component).2 with
      elementData := adel (getId s component).2.elementData (getId s component).1,
      roots := sdel (getId s component).2.roots (getId s component).1,
      renderers := adel (getId s component).2.renderers (getId s component).1,
      ids := match component with
             | Handle.obj r => adel (getId s component).2.ids r
             | _ => (getId s component).2.ids }

/-- `Agent.onUnmounted(component)`. -/
def onUnmounted (s : AgentState) (component : Handle) : AgentState × List Event :=
  (unmountState s component, [Event.unmount (getId s component).1])

/-- `Agent.getNodeForID(id)` with JS exception behaviour made explicit:
when `renderers` has an entry whose renderer was never registered via
`setReactInternals`, the property access
`this.reactInternals[renderer].getNativeFromReactElement` throws a
TypeError (the `error` case).  The producer callback itself is modelled
as a pure lookup. -/
def getNodeForID (s : AgentState) (id : Handle) : Except Unit (Option Nat) :=
  match alookup s.reactElements id with
  | none => Except.ok none
  | some component =>
      match alookup s.renderers id with
      | none => Except.ok none
      | some renderer =>
          match alookup s.reactInternals renderer with
          | none => Except.error ()
          | some h =>
              match h.getNativeFromReactElement with
              | none => Except.ok none
              | some f => Except.ok (f component)

/-- Total description of `getNodeForID` on states where every attributed
renderer has been registered (the non-throwing behaviour). -/
def nodeOf (s : AgentState) (id : Handle) : Option Nat :=
  match alookup s.reactElements id with
  | none => none
  | some component =>
      match alookup s.renderers id with
      | none => none
      | some renderer =>
          match alookup s.reactInternals renderer with
          | none => none
          | some h =>
              match h.getNativeFromReactElement with
              | none => none
              | some f => f component

/-- Every renderer attributed in `renderers` has a `reactInternals`
entry (i.e. `setReactInternals` was called for it, as the backend does at
registration time). -/
def renderersKnownB (s : AgentState) : Bool :=
  s.renderers.all (fun p => (alookup s.reactInternals p.2).isSome)

/-- Proposition form of `renderersKnownB`. -/
def RenderersKnown (s : AgentState) : Prop := renderersKnownB s = true

/-- `Agent.highlight(id)`: emit a highlight event only when both a stored
snapshot and a native node exist. -/
def highlight (s : AgentState) (id : Handle) : Except Unit (List Event) :=
  match getNodeForID s id with
  | Except.error e => Except.error e
  | Except.ok node =>
      match alookup s.elementData id, node with
      | some d, some n => Except.ok [Event.highlight n d.name d.props]
      | _, _ => Except.ok []

/-- The `ids.forEach` loop of `highlightMany`: collect the native nodes of
the ids that resolve, in input order. -/
def collectNodes (s : AgentState) : List Handle → Except Unit (List Nat)
  | [] => Except.ok []
  | id :: rest =>
      match getNodeForID s id with
      | Except.error e => Except.error e
      | Except.ok none => collectNodes s rest
      | Except.ok (some n) =>
          match collectNodes s rest with
          | Except.error e => Except.error e
          | Except.ok ns => Except.ok (n :: ns)

/-- `Agent.highlightMany(ids)`: emit one event iff the resolved list is
nonempty. -/
def highlightMany (s : AgentState) (ids : List Handle) : Except Unit (List Event) :=
  match collectNodes s ids with
  | Except.error e => Except.error e
  | Except.ok ns => Except.ok (if ns.isEmpty then [] else [Event.highlightMany ns])

/-- One producer lookup attempt inside `getIDForNode`: a missing
`getReactElementFromNative` function makes the call expression throw,
which the surrounding try/catch swallows, so it is folded into
`PRes.throws`. -/
def helperRes (h : Helpers) (node : Nat) : PRes :=
  match h.getReactElementFromNative with
  | none => PRes.throws
  | some f => f node

/-- The producer neither throws nor returns a truthy component for this
node (it is skipped by the `getIDForNode` loop). -/
def missesB (h : Helpers) (node : Nat) : Bool :=
  match helperRes h node with
  | PRes.throws => true
  | PRes.ret c => !c.truthy

/-- The `for (var renderer in this.reactInternals)` loop of
`getIDForNode`: try each registered producer in registration order; an
exception is caught and treated as no match; the first truthy component
wins.  (The `component` variable in the source persists across loop
iterations, but a previous iteration can only have left a falsy value in
it — a truthy one returns immediately — so the recursion is equivalent.) -/
def tryProducers : List (Nat × Helpers) → Nat → Option Handle
  | [], _ => none
  | p :: rest, node =>
      match helperRes p.2 node with
      | PRes.throws => tryProducers rest node
      | PRes.ret c => if c.truthy then some c else tryProducers rest node

/-- `Agent.getIDForNode(node)`.  The initial `if (!this.reactInternals)`
guard never fires (the field is initialised to an object, which is
truthy). -/
def getIDForNode (s : AgentState) (node : Nat) : Option Handle × AgentState :=
  match tryProducers s.reactInternals node with
  | none => (none, s)
  | some c => (some (getId s c).1, (getId s c).2)

/-- `Agent._setProps({id, path, value})`: invoke the producer's
`setInProps` slot when present, otherwise warn and do nothing. -/
def setPropsCmd (s : AgentState) (id : Handle) (path : List String) (value : JVal) :
    AgentState × List Event :=
  match alookup s.elementData id with
  | some d =>
      match d.updater with
      | some u =>
          if u.setInProps then (s, [Event.callSetInProps path value])
          else (s, [Event.warn WarnMsg.setPropsUnsupported])
      | none => (s, [Event.warn WarnMsg.setPropsUnsupported])
  | none => (s, [Event.warn WarnMsg.setPropsUnsupported])

/-- `Agent._setState({id, path, value})`. -/
def setStateCmd (s : AgentState) (id : Handle) (path : List String) (value : JVal) :
    AgentState × List Event :=
  match alookup s.elementData id with
  | some d =>
      match d.updater with
      | some u =>
          if u.setInState then (s, [Event.callSetInState path value])
          else (s, [Event.warn WarnMsg.setStateUnsupported])
      | none => (s, [Event.warn WarnMsg.setStateUnsupported])
  | none => (s, [Event.warn WarnMsg.setStateUnsupported])

/-- `Agent._setContext({id, path, value})` (its warning string is the
"set state" one, copied verbatim in the source). -/
def setContextCmd (s : AgentState) (id : Handle) (path : List String) (value : JVal) :
    AgentState × List Event :=
  match alookup s.elementData id with
  | some d =>
      match d.updater with
      | some u =>
          if u.setInContext then (s, [Event.callSetInContext path value])
          else (s, [Event.warn WarnMsg.setStateUnsupported])
      | none => (s, [Event.warn WarnMsg.setStateUnsupported])
  | none => (s, [Event.warn WarnMsg.setStateUnsupported])

/-- JS property access `obj[attr]` as used by `getIn`, with the TypeError
on a null/undefined base made explicit.  Primitives other than
null/undefined autobox and yield `undefined` for the attributes walked
here; arrays answer numeric-string indices. -/
def jsGetE : JVal → String → Except Unit JVal
  | JVal.undef, _ => Except.error ()
  | JVal.null, _ => Except.error ()
  | JVal.vobj fs, k => Except.ok ((alookup fs k).getD JVal.undef)
  | JVal.varr xs, k =>
      Except.ok (match k.toNat? with
                 | some i => xs.getD i JVal.undef
                 | none => JVal.undef)
  | _, _ => Except.ok JVal.undef

/-- Total counterpart of `jsGetE` (the null/undefined cases are
unreachable under the truthiness guard of `getIn`). -/
def jsGetTotal : JVal → String → JVal
  | JVal.undef, _ => JVal.undef
  | JVal.null, _ => JVal.undef
  | JVal.vobj fs, k => (alookup fs k).getD JVal.undef
  | JVal.varr xs, k =>
      (match k.toNat? with
       | some i => xs.getD i JVal.undef
       | none => JVal.undef)
  | _, _ => JVal.undef

/-- One step of the `path.reduce` in `getIn`: `obj ? obj[attr] : null`. -/
def getInStep (obj : JVal) (attr : String) : JVal :=
  if obj.truthy then jsGetTotal obj attr else JVal.null

/-- `getIn(base, path)` (the helper at the bottom of Agent.js). -/
def getIn (base : JVal) (path : List String) : JVal :=
  path.foldl getInStep base

/-- `getIn` with the possible property-access exception made explicit, to
state that the walk never actually throws. -/
def getInStepE (acc : Except Unit JVal) (attr : String) : Except Unit JVal :=
  match acc with
  | Except.error e => Except.error e
  | Except.ok obj => if obj.truthy then jsGetE obj attr else Except.ok JVal.null

/-- Exception-explicit `getIn`. -/
def getInE (base : JVal) (path : List String) : Except Unit JVal :=
  path.foldl getInStepE (Except.ok base)

/-- JVal form of a primitive. -/
def Prim.toJVal : Prim → JVal
  | Prim.undef => JVal.undef
  | Prim.null => JVal.null
  | Prim.bool b => JVal.vbool b
  | Prim.num n => JVal.vnum n
  | Prim.str s => JVal.vstr s

/-- JVal form of a handle-position value (objects rendered as an opaque
one-field record, tokens as their guid string). -/
def Handle.toJVal : Handle → JVal
  | Handle.obj r => JVal.vobj [("ref", JVal.vnum (Int.ofNat r))]
  | Handle.tok n => JVal.vstr (Nat.repr n)
  | Handle.prim p => p.toJVal

/-- JVal form of an optional opaque object reference (absent fields read
as undefined). -/
def refJVal : Option Nat → JVal
  | none => JVal.undef
  | some r => JVal.vobj [("ref", JVal.vnum (Int.ofNat r))]

/-- JVal form of the updater record: present callback slots are truthy
opaque objects, absent ones read as undefined. -/
def updaterJVal : Option Updater → JVal
  | none => JVal.undef
  | some u =>
      JVal.vobj
        [("setInProps", if u.setInProps then JVal.vobj [] else JVal.undef),
         ("setInState", if u.setInState then JVal.vobj [] else JVal.undef),
         ("setInContext", if u.setInContext then JVal.vobj [] else JVal.undef),
         ("forceUpdate", if u.forceUpdate then JVal.vobj [] else JVal.undef)]

/-- JVal form of the children field. -/
def childrenJVal : Option (List Handle) → JVal
  | none => JVal.undef
  | some cs => JVal.varr (cs.map Handle.toJVal)

/-- The stored raw data record viewed as the JS object that `getIn`
walks. -/
def dataToJVal (d : DataType) : JVal :=
  JVal.vobj
    [("name", d.name.toJVal),
     ("props", d.props),
     ("state", d.state),
     ("context", d.context),
     ("publicInstance", refJVal d.publicInstance),
     ("children", childrenJVal d.children),
     ("updater", updaterJVal d.updater),
     ("type", refJVal d.type)]

/-- The `path` argument of an inbound `makeGlobal` command: either the
literal string `'instance'` or an array of attribute names (the type given
in the source). -/
inductive PathArg where
  | instStr
  | arr (ps : List String)

/-- `Agent._makeGlobal({id, path})`: with no stored snapshot it returns
before any side effect (no `$tmp` write, no console output); otherwise it
assigns `$tmp` and logs. -/
def makeGlobal (s : AgentState) (id : Handle) (path : PathArg) :
    AgentState × List Event :=
  match alookup s.elementData id with
  | none => (s, [])
  | some d =>
      ({ s with
           globalTmp := some (match path with
                              | PathArg.instStr => refJVal d.publicInstance
                              | PathArg.arr ps => getIn (dataToJVal d) ps) },
       [Event.consoleLog])

/-- `Agent._onScroll()`: set the debounce flag and request an animation
frame only when the flag is clear; the boolean result records whether a
frame callback was scheduled. -/
def agentOnScroll (s : AgentState) : AgentState × Bool :=
  if s.scrollUpdate then (s, false)
  else ({ s with scrollUpdate := true }, true)

/-- `Agent._updateScroll()`: emit `refreshMultiOverlay` and clear the
flag. -/
def agentUpdateScroll (s : AgentState) : AgentState × List Event :=
  ({ s with scrollUpdate := false }, [Event.refreshMultiOverlay])

/-- The agent together with the browser's queue of pending
`requestAnimationFrame` callbacks (all of them `_updateScroll`). -/
structure ScrollWorld where
  agent : AgentState
  pending : Nat

/-- A scroll notification delivered to the agent. -/
def scrollNotify (w : ScrollWorld) : ScrollWorld :=
  ⟨(agentOnScroll w.agent).1,
   w.pending + (if (agentOnScroll w.agent).2 then 1 else 0)⟩

/-- Run the given number of queued `_updateScroll` callbacks in order. -/
def runFrames : Nat → AgentState → AgentState × List Event
  | 0, s => (s, [])
  | n + 1, s =>
      ((runFrames n (agentUpdateScroll s).1).1,
       (agentUpdateScroll s).2 ++ (runFrames n (agentUpdateScroll s).1).2)

/-- The next animation frame fires: every queued callback runs, emptying
the queue. -/
def fireFrame (w : ScrollWorld) : ScrollWorld × List Event :=
  (⟨(runFrames w.pending w.agent).1, 0⟩, (runFrames w.pending w.agent).2)

/-- The value is a guid token strictly below the counter bound. -/
def tokBelow (h : Handle) (n : Nat) : Bool :=
  match h with
  | Handle.tok m => decide (m < n)
  | _ => false

/-- Every identity recorded in the `ids` WeakMap is a token already
dispensed by the guid counter. -/
def idsBelow (l : List (Nat × Handle)) (n : Nat) : Bool :=
  l.all (fun p => tokBelow p.2 n)

/-- The identities recorded in `ids` are pairwise distinct. -/
def valsNe : List (Nat × Handle) → Bool
  | [] => true
  | p :: t => t.all (fun q => p.2 != q.2) && valsNe t

/-- Registry well-formedness: tokens below the counter and pairwise
distinct.  Holds for the initial state and is preserved by `getId`. -/
def WF (s : AgentState) : Prop :=
  idsBelow s.ids s.nextGuid = true ∧ valsNe s.ids = true

instance (s : AgentState) : Decidable (WF s) := by
  unfold WF; infer_instance

theorem alookup_mem {α β : Type} [DecidableEq α] {l : List (α × β)} {k : α} {v : β}
    (h : alookup l k = some v) : (k, v) ∈ l := by
  induction l with
  | nil => simp [alookup] at h
  | cons p t ih =>
      cases p with
      | mk k' v' =>
          by_cases hk : k' = k
          · subst hk
            simp [alookup] at h
            simp [h]
          · simp [alookup, hk] at h
            exact List.mem_cons_of_mem _ (ih h)

theorem aset_absent {α β : Type} [DecidableEq α] {l : List (α × β)} {k : α} (v : β)
    (h : alookup l k = none) : aset l k v = l ++ [(k, v)] := by
  induction l with
  | nil => simp [aset]
  | cons p t ih =>
      cases p with
      | mk k' v' =>
          by_cases hk : k' = k
          · simp [alookup, hk] at h
          · simp [alookup, hk] at h
            simp [aset, hk, ih h]

theorem alookup_aset_self {α β : Type} [DecidableEq α] (l : List (α × β)) (k : α) (v : β) :
    alookup (aset l k v) k = some v := by
  induction l with
  | nil => simp [aset, alookup]
  | cons p t ih =>
      by_cases hk : p.1 = k
      · simp [aset, hk, alookup]
      · simp [aset, hk, alookup, ih]

theorem alookup_aset_ne {α β : Type} [DecidableEq α] (l : List (α × β)) {k k' : α} (v : β)
    (h : k' ≠ k) : alookup (aset l k v) k' = alookup l k' := by
  induction l with
  | nil => simp [aset, alookup, Ne.symm h]
  | cons p t ih =>
      by_cases hk : p.1 = k
      · subst hk
        simp [aset, alookup, Ne.symm h]
      · by_cases hk' : p.1 = k'
        · simp [aset, hk, alookup, hk', h]
        · simp [aset, hk, alookup, hk', ih]

theorem alookup_adel_self {α β : Type} [DecidableEq α] (l : List (α × β)) (k : α) :
    alookup (adel l k) k = none := by
  induction l with
  | nil => simp [adel, alookup]
  | cons p t ih =>
      by_cases hk : p.1 = k
      · simp [adel, hk, ih]
      · simp [adel, hk, alookup, ih]

theorem alookup_adel_ne {α β : Type} [DecidableEq α] (l : List (α × β)) {k k' : α}
    (h : k' ≠ k) : alookup (adel l k) k' = alookup l k' := by
  induction l with
  | nil => simp [adel]
  | cons p t ih =>
      by_cases hk : p.1 = k
      · subst hk
        simp [adel, alookup, Ne.symm h, ih]
      · simp [adel, hk, alookup, ih]

theorem not_mem_sdel {α : Type} [DecidableEq α] (l : List α) (a : α) :
    a ∉ sdel l a := by
  induction l with
  | nil => simp [sdel]
  | cons x t ih =>
      by_cases hx : x = a
      · simpa [sdel, hx] using ih
      · simp [sdel, hx]
        exact ⟨fun hh => hx hh.symm, ih⟩

theorem idsBelow_lt {l : List (Nat × Handle)} {n : Nat} {k : Nat} {v : Handle}
    (hb : idsBelow l n = true) (hm : (k, v) ∈ l) : tokBelow v n = true := by
  have := List.all_eq_true.mp hb ⟨k, v⟩ hm
  simpa using this

theorem tokBelow_exists {v : Handle} {n : Nat} (h : tokBelow v n = true) :
    ∃ m, v = Handle.tok m ∧ m < n := by
  cases v with
  | tok m => exact ⟨m, rfl, by simpa [tokBelow] using h⟩
  | obj r => simp [tokBelow] at h
  | prim p => simp [tokBelow] at h

theorem valsNe_cons {p : Nat × Handle} {t : List (Nat × Handle)}
    (h : valsNe (p :: t) = true) :
    (∀ q ∈ t, p.2 ≠ q.2) ∧ valsNe t = true := by
  simp only [valsNe, Bool.and_eq_true] at h
  refine ⟨fun q hq => ?_, h.2⟩
  have := List.all_eq_true.mp h.1 q hq
  simpa using this

theorem valsNe_ne {l : List (Nat × Handle)} (hv : valsNe l = true) :
    ∀ {k1 v1 k2 v2}, (k1, v1) ∈ l → (k2, v2) ∈ l → k1 ≠ k2 → v1 ≠ v2 := by
  induction l with
  | nil => intro k1 v1 k2 v2 h1; simp at h1
  | cons p t ih =>
      intro k1 v1 k2 v2 h1 h2 hk
      obtain ⟨hall, hrest⟩ := valsNe_cons hv
      rcases List.mem_cons.mp h1 with e1 | m1
      · rcases List.mem_cons.mp h2 with e2 | m2
        · rw [← e2] at e1
          exact absurd (congrArg Prod.fst e1) hk
        · have h2x := hall (k2, v2) m2
          rw [← e1] at h2x
          exact h2x
      · rcases List.mem_cons.mp h2 with e2 | m2
        · have h2x := hall (k1, v1) m1
          rw [← e2] at h2x
          exact fun hh => h2x (by rw [hh])
        · exact ih hrest m1 m2 hk

theorem idsBelow_mono {l : List (Nat × Handle)} {n : Nat}
    (h : idsBelow l n = true) : idsBelow l (n + 1) = true := by
  refine List.all_eq_true.mpr (fun p hp => ?_)
  have := List.all_eq_true.mp h p hp
  obtain ⟨m, hv, hlt⟩ := tokBelow_exists (by simpa using this)
  simp [hv, tokBelow]
  omega

theorem idsBelow_append_fresh {l : List (Nat × Handle)} {n : Nat} {k : Nat}
    (h : idsBelow l n = true) :
    idsBelow (l ++ [(k, Handle.tok n)]) (n + 1) = true := by
  have h1 := idsBelow_mono h
  refine List.all_eq_true.mpr (fun p hp => ?_)
  rcases List.mem_append.mp hp with hm | hm
  · exact List.all_eq_true.mp h1 p hm
  · simp at hm
    simp [hm, tokBelow]

theorem valsNe_append_fresh {l : List (Nat × Handle)} {n : Nat} {k : Nat}
    (hb : idsBelow l n = true) (hv : valsNe l = true) :
    valsNe (l ++ [(k, Handle.tok n)]) = true := by
  induction l with
  | nil => simp [valsNe]
  | cons p t ih =>
      simp [idsBelow] at hb
      obtain ⟨hp, ht⟩ := hb
      simp [valsNe] at hv
      obtain ⟨hall, hrest⟩ := hv
      have hres := ih (by simpa [idsBelow] using ht) hrest
      simp [valsNe]
      refine ⟨⟨fun q hq => by simpa using hall _ hq, ?_⟩, hres⟩
      obtain ⟨m, hvp, hlt⟩ := tokBelow_exists hp
      simp [hvp]
      omega

theorem getId_nonobj (s : AgentState) {h : Handle} (hno : h.isObj = false) :
    getId s h = (h, s) := by
  cases h with
  | obj r => simp [Handle.isObj] at hno
  | tok n => rfl
  | prim p => rfl

theorem getId_found {s : AgentState} {r : Nat} {i : Handle}
    (hid : alookup s.ids r = some i) : getId s (Handle.obj r) = (i, s) := by
  simp [getId, hid]

theorem getId_fresh {s : AgentState} {r : Nat} (hid : alookup s.ids r = none) :
    getId s (Handle.obj r) =
      (Handle.tok s.nextGuid,
       { s with
           ids := aset s.ids r (Handle.tok s.nextGuid),
           reactElements := aset s.reactElements (Handle.tok s.nextGuid) r,
           nextGuid := s.nextGuid + 1 }) := by
  simp [getId, hid]

theorem getId_elementData (s : AgentState) (h : Handle) :
    (getId s h).2.elementData = s.elementData := by
  cases h with
  | obj r => cases hl : alookup s.ids r <;> simp [getId, hl]
  | tok n => rfl
  | prim p => rfl

theorem getId_renderers (s : AgentState) (h : Handle) :
    (getId s h).2.renderers = s.renderers := by
  cases h with
  | obj r => cases hl : alookup s.ids r <;> simp [getId, hl]
  | tok n => rfl
  | prim p => rfl

theorem getId_roots (s : AgentState) (h : Handle) :
    (getId s h).2.roots = s.roots := by
  cases h with
  | obj r => cases hl : alookup s.ids r <;> simp [getId, hl]
  | tok n => rfl
  | prim p => rfl

theorem getId_WF {s : AgentState} (hWF : WF s) (h : Handle) : WF (getId s h).2 := by
  cases h with
  | obj r =>
      cases hl : alookup s.ids r with
      | some i => simpa [getId, hl] using hWF
      | none =>
          obtain ⟨hb, hv⟩ := hWF
          constructor
          · simp [getId, hl, aset_absent _ hl]
            exact idsBelow_append_fresh hb
          · simp [getId, hl, aset_absent _ hl]
            exact valsNe_append_fresh hb hv
  | tok n => exact hWF
  | prim p => exact hWF

theorem getId_not_obj {s : AgentState} (hWF : WF s) (h : Handle) :
    ((getId s h).1).isObj = false := by
  cases h with
  | obj r =>
      cases hl : alookup s.ids r with
      | some i =>
          obtain ⟨m, hm, _⟩ := tokBelow_exists (idsBelow_lt hWF.1 (alookup_mem hl))
          simp [getId, hl, hm, Handle.isObj]
      | none => simp [getId, hl, Handle.isObj]
  | tok n => rfl
  | prim p => rfl

theorem getId_ids_mono {s : AgentState} {r : Nat} {i : Handle}
    (hid : alookup s.ids r = some i) (h : Handle) :
    alookup (getId s h).2.ids r = some i := by
  cases h with
  | obj r2 =>
      cases hl : alookup s.ids r2 with
      | some j => simp [getId, hl, hid]
      | none =>
          have hne : r ≠ r2 := by
            intro he
            rw [he, hl] at hid
            cases hid
          simp [getId, hl]
          rw [alookup_aset_ne _ _ hne]
          exact hid
  | tok n => simpa [getId] using hid
  | prim p => simpa [getId] using hid

theorem WF_of_eq {s t : AgentState} (hWF : WF s) (hids : t.ids = s.ids)
    (hg : t.nextGuid = s.nextGuid) : WF t := by
  unfold WF at hWF ⊢
  rw [hids, hg]
  exact hWF

theorem getIds_elementData (s : AgentState) (cs : List Handle) :
    (getIds s cs).2.elementData = s.elementData := by
  induction cs generalizing s with
  | nil => rfl
  | cons c cs ih => simp [getIds, ih, getId_elementData]

theorem getIds_WF {s : AgentState} (hWF : WF s) (cs : List Handle) :
    WF (getIds s cs).2 := by
  induction cs generalizing s with
  | nil => exact hWF
  | cons c cs ih => exact ih (getId_WF hWF c)

theorem getIds_not_obj {s : AgentState} (hWF : WF s) (cs : List Handle) :
    ∀ x ∈ (getIds s cs).1, x.isObj = false := by
  induction cs generalizing s with
  | nil => intro x hx; simp [getIds] at hx
  | cons c cs ih =>
      intro x hx
      simp only [getIds, List.mem_cons] at hx
      rcases hx with hx | hx
      · rw [hx]
        exact getId_not_obj hWF c
      · exact ih (getId_WF hWF c) x hx

/-- Claim C2: `getId` satisfies the identity-registry contract: non-object
inputs are returned unchanged (with no state change); repeated calls for
the same object handle return the same token and leave the registry as it
is; existing handle-to-identity associations are never disturbed by other
`getId` calls; and two distinct live object handles always receive
distinct tokens (the modelled guid counter never repeats). -/
theorem C2_getId_contract (s : AgentState) (hWF : WF s) :
    (∀ h : Handle, h.isObj = false → getId s h = (h, s)) ∧
    (∀ r : Nat, getId (getId s (Handle.obj r)).2 (Handle.obj r) = getId s (Handle.obj r)) ∧
    (∀ (r : Nat) (i : Handle) (h : Handle),
       alookup s.ids r = some i → alookup ((getId s h).2).ids r = some i) ∧
    (∀ r1 r2 : Nat, r1 ≠ r2 →
       (getId s (Handle.obj r1)).1 ≠
         (getId (getId s (Handle.obj r1)).2 (Handle.obj r2)).1) := by
  refine ⟨fun h hno => getId_nonobj s hno, fun r => ?_, fun r i h hid => getId_ids_mono hid h, ?_⟩
  · cases hl : alookup s.ids r with
    | some i =>
        rw [getId_found hl]
        exact getId_found hl
    | none =>
        rw [getId_fresh hl]
        exact getId_found (by simpa using alookup_aset_self s.ids r (Handle.tok s.nextGuid))
  · intro r1 r2 hne
    cases hl1 : alookup s.ids r1 with
    | some i1 =>
        rw [getId_found hl1]
        cases hl2 : alookup s.ids r2 with
        | some i2 =>
            rw [getId_found hl2]
            exact valsNe_ne hWF.2 (alookup_mem hl1) (alookup_mem hl2) hne
        | none =>
            rw [getId_fresh hl2]
            obtain ⟨m, hm, hlt⟩ := tokBelow_exists (idsBelow_lt hWF.1 (alookup_mem hl1))
            rw [hm]
            simp only [ne_eq, Handle.tok.injEq]
            omega
    | none =>
        rw [getId_fresh hl1]
        cases hl2 : alookup (aset s.ids r1 (Handle.tok s.nextGuid)) r2 with
        | some i2 =>
            rw [getId_found (s := _) hl2]
            rw [alookup_aset_ne _ _ (Ne.symm hne)] at hl2
            obtain ⟨m, hm, hlt⟩ := tokBelow_exists (idsBelow_lt hWF.1 (alookup_mem hl2))
            rw [hm]
            simp only [ne_eq, Handle.tok.injEq]
            omega
        | none =>
            rw [getId_fresh (s := _) hl2]
            simp only [ne_eq, Handle.tok.injEq]
            omega
  
/-- Witness for C2: at the initial state (which is well-formed), a
primitive passes through unchanged and two distinct object handles get
distinct tokens. -/
theorem C2_witness :
    WF initialAgent ∧
    getId initialAgent (Handle.prim Prim.null) = (Handle.prim Prim.null, initialAgent) ∧
    (getId initialAgent (Handle.obj 0)).1 ≠
      (getId (getId initialAgent (Handle.obj 0)).2 (Handle.obj 1)).1 :=
  ⟨by decide,
   (C2_getId_contract initialAgent (by decide)).1 (Handle.prim Prim.null) (by decide),
   (C2_getId_contract initialAgent (by decide)).2.2.2 0 1 (by decide)⟩

/-- Concrete raw data record used in witnesses: name "W", no children
array, no updater. -/
def dW : DataType :=
  ⟨Prim.str "W", JVal.undef, JVal.undef, JVal.undef, none, none, none, none⟩

/-- Claim C3: for a handle whose identity is registered (as any previously
mounted handle's is), `onUnmounted` removes the element-store snapshot,
the root membership and the renderer attribution of that identity, and a
subsequent `getId` call allocates a fresh identity different from it. -/
theorem C3_onUnmounted_clears (s : AgentState) (r : Nat) (i : Handle)
    (hWF : WF s) (hid : alookup s.ids r = some i) :
    alookup (onUnmounted s (Handle.obj r)).1.elementData i = none ∧
    i ∉ (onUnmounted s (Handle.obj r)).1.roots ∧
    alookup (onUnmounted s (Handle.obj r)).1.renderers i = none ∧
    (getId (onUnmounted s (Handle.obj r)).1 (Handle.obj r)).1 ≠ i := by
  have hpair := getId_found hid
  constructor
  · simp only [onUnmounted, unmountState, hpair]
    exact alookup_adel_self s.elementData i
  constructor
  · simp only [onUnmounted, unmountState, hpair]
    exact not_mem_sdel s.roots i
  constructor
  · simp only [onUnmounted, unmountState, hpair]
    exact alookup_adel_self s.renderers i
  · have hids : (onUnmounted s (Handle.obj r)).1.ids = adel s.ids r := by
      simp only [onUnmounted, unmountState, hpair]
    have hng : (onUnmounted s (Handle.obj r)).1.nextGuid = s.nextGuid := by
      simp only [onUnmounted, unmountState, hpair]
    have hnone : alookup (onUnmounted s (Handle.obj r)).1.ids r = none := by
      rw [hids]
      exact alookup_adel_self s.ids r
    have hfr := getId_fresh hnone
    rw [hfr, hng]
    obtain ⟨m, hm, hlt⟩ := tokBelow_exists (idsBelow_lt hWF.1 (alookup_mem hid))
    rw [hm]
    simp only [ne_eq, Handle.tok.injEq]
    omega

/-- Witness for C3: mount one component at the initial state, then
unmount it. -/
theorem C3_witness :
    alookup (onUnmounted (onMounted initialAgent 1 (Handle.obj 0) dW).1
      (Handle.obj 0)).1.elementData (Handle.tok 0) = none ∧
    Handle.tok 0 ∉ (onUnmounted (onMounted initialAgent 1 (Handle.obj 0) dW).1
      (Handle.obj 0)).1.roots ∧
    alookup (onUnmounted (onMounted initialAgent 1 (Handle.obj 0) dW).1
      (Handle.obj 0)).1.renderers (Handle.tok 0) = none ∧
    (getId (onUnmounted (onMounted initialAgent 1 (Handle.obj 0) dW).1
      (Handle.obj 0)).1 (Handle.obj 0)).1 ≠ Handle.tok 0 :=
  C3_onUnmounted_clears (onMounted initialAgent 1 (Handle.obj 0) dW).1 0
    (Handle.tok 0) (by decide) (by decide)

/-- Counterexample to claim C4: mount a component and unmount it; the
`reactElements` registry still maps the old identity to the handle (the
source's `onUnmounted` never deletes from `reactElements`), even though
the element-store entry is gone. -/
theorem C4_counterexample :
    alookup (onUnmounted (onMounted initialAgent 1 (Handle.obj 0) dW).1
      (Handle.obj 0)).1.reactElements (Handle.tok 0) = some 0 ∧
    alookup (onUnmounted (onMounted initialAgent 1 (Handle.obj 0) dW).1
      (Handle.obj 0)).1.elementData (Handle.tok 0) = none :=
  ⟨rfl, rfl⟩

/-- Claim C4 amended: `onUnmounted(H)` removes the element-store entry,
root membership, renderer attribution and the handle-to-identity
association for identity i, but leaves the `reactElements` reverse map
untouched, so the old identity still maps to H afterwards; the reverse
lookup thus outlives the element-store entry rather than being removed
with it. -/
theorem C4_amended (s : AgentState) (r : Nat) (i : Handle)
    (hid : alookup s.ids r = some i) :
    (onUnmounted s (Handle.obj r)).1.reactElements = s.reactElements ∧
    alookup (onUnmounted s (Handle.obj r)).1.elementData i = none := by
  have hpair := getId_found hid
  constructor
  · simp only [onUnmounted, unmountState, hpair]
  · simp only [onUnmounted, unmountState, hpair]
    exact alookup_adel_self s.elementData i

/-- Witness for C4's amended statement at a concrete mounted state. -/
theorem C4_witness :
    (onUnmounted (onMounted initialAgent 1 (Handle.obj 0) dW).1
       (Handle.obj 0)).1.reactElements
      = (onMounted initialAgent 1 (Handle.obj 0) dW).1.reactElements ∧
    alookup (onUnmounted (onMounted initialAgent 1 (Handle.obj 0) dW).1
      (Handle.obj 0)).1.elementData (Handle.tok 0) = none :=
  C4_amended (onMounted initialAgent 1 (Handle.obj 0) dW).1 0 (Handle.tok 0) (by decide)

theorem sendChildren_elementData (s : AgentState) (oc : Option (List Handle)) :
    (sendChildren s oc).2.elementData = s.elementData := by
  cases oc with
  | none => rfl
  | some cs => simp [sendChildren, getIds_elementData]

/-- Concrete raw data whose children array contains a raw object handle. -/
def dC1 : DataType :=
  ⟨Prim.str "X", JVal.undef, JVal.undef, JVal.undef, none,
   some [Handle.obj 5], none, none⟩

/-- Counterexample to claim C1: after `onMounted` on data whose children
array holds the raw object handle 5, the snapshot stored in the element
store under the allocated identity still has that raw handle in its
children field (the source stores the raw data object and only translates
children on the shallow copy it emits). -/
theorem C1_counterexample :
    Option.map DataType.children
      (alookup (onMounted initialAgent 1 (Handle.obj 0) dC1).1.elementData
        (Handle.tok 0)) = some (some [Handle.obj 5]) ∧
    Handle.isObj (Handle.obj 5) = true :=
  ⟨rfl, rfl⟩

/-- Claim C1 amended: after `onMounted(r, H, data)` (and likewise
`onUpdated(H, data)`), the children of the payload emitted with the
`mount`/`update` event are all Identities (never raw object handles),
while the element store under `getId(H)` keeps the producer's raw data
object unchanged, so the stored snapshot's children may still be raw
handles. -/
theorem C1_amended (s : AgentState) (hWF : WF s) (renderer : Nat)
    (component : Handle) (d : DataType) (p q : SendPayload)
    (hp : (onMounted s renderer component d).2 = [Event.mount p])
    (hq : (onUpdated s component d).2 = [Event.update q]) :
    (alookup (onMounted s renderer component d).1.elementData p.id = some d ∧
     p.children.isSome = d.children.isSome ∧
     (p.children.getD []).all (fun x => !x.isObj) = true) ∧
    (alookup (onUpdated s component d).1.elementData q.id = some d ∧
     q.children.isSome = d.children.isSome ∧
     (q.children.getD []).all (fun x => !x.isObj) = true) := by
  simp only [onMounted, List.cons.injEq, and_true, Event.mount.injEq] at hp
  simp only [onUpdated, List.cons.injEq, and_true, Event.update.injEq] at hq
  subst hp
  subst hq
  have hWFm : WF (mountStore s renderer component d) :=
    WF_of_eq (getId_WF hWF component) rfl rfl
  have hWFu : WF (updateStore s component d) :=
    WF_of_eq (getId_WF hWF component) rfl rfl
  constructor
  · refine ⟨?_, ?_, ?_⟩
    · simp only [onMounted, buildPayload, sendChildren_elementData,
        mountStore]
      exact alookup_aset_self _ _ _
    · cases hc : d.children with
      | none => simp [buildPayload, sendChildren, hc]
      | some cs => simp [buildPayload, sendChildren, hc]
    · cases hc : d.children with
      | none => simp [buildPayload, sendChildren, hc]
      | some cs =>
          simp only [buildPayload, sendChildren, hc, Option.getD_some]
          refine List.all_eq_true.mpr (fun x hx => ?_)
          have := getIds_not_obj hWFm cs x hx
          simp [this]
  · refine ⟨?_, ?_, ?_⟩
    · simp only [onUpdated, buildPayload, sendChildren_elementData,
        updateStore]
      exact alookup_aset_self _ _ _
    · cases hc : d.children with
      | none => simp [buildPayload, sendChildren, hc]
      | some cs => simp [buildPayload, sendChildren, hc]
    · cases hc : d.children with
      | none => simp [buildPayload, sendChildren, hc]
      | some cs =>
          simp only [buildPayload, sendChildren, hc, Option.getD_some]
          refine List.all_eq_true.mpr (fun x hx => ?_)
          have := getIds_not_obj hWFu cs x hx
          simp [this]

/-- The concrete payload emitted for `dC1` mounted at the initial state. -/
def pC1 : SendPayload :=
  ⟨Prim.str "X", JVal.undef, JVal.undef, JVal.undef, none,
   some [Handle.tok 1], Handle.tok 0, Prim.undef, none, none⟩

/-- Witness for C1's amended statement at a concrete input. -/
theorem C1_amended_witness :
    (alookup (onMounted initialAgent 1 (Handle.obj 0) dC1).1.elementData
       pC1.id = some dC1 ∧
     pC1.children.isSome = dC1.children.isSome ∧
     (pC1.children.getD []).all (fun x => !x.isObj) = true) ∧
    (alookup (onUpdated initialAgent (Handle.obj 0) dC1).1.elementData
       pC1.id = some dC1 ∧
     pC1.children.isSome = dC1.children.isSome ∧
     (pC1.children.getD []).all (fun x => !x.isObj) = true) :=
  C1_amended initialAgent (by decide) 1 (Handle.obj 0) dC1 pC1 pC1 rfl rfl

/-- The raw data of the C5 mount scenario: name "App", empty children
array, no updater. -/
def dApp : DataType :=
  ⟨Prim.str "App", JVal.undef, JVal.undef, JVal.undef, none, some [], none, none⟩

/-- The payload actually emitted in the C5 scenario. -/
def pApp : SendPayload :=
  ⟨Prim.str "App", JVal.undef, JVal.undef, JVal.undef, none, some [],
   Handle.tok 0, Prim.undef, none, none⟩

/-- Counterexample to claim C5: in the addRoot-then-onMounted scenario
with no updater, the emitted mount payload's canUpdate field is the JS
value undefined — the expression `send.updater && !!send.updater.forceUpdate`
short-circuits to undefined — not the boolean false the claim states. -/
theorem C5_counterexample :
    (onMounted (addRoot initialAgent 7 (Handle.obj 0)).1 7 (Handle.obj 0) dApp).2
      = [Event.mount pApp] ∧
    pApp.canUpdate = Prim.undef ∧
    Prim.undef ≠ Prim.bool false :=
  ⟨rfl, rfl, by decide⟩

/-- Claim C5 amended: calling addRoot then onMounted for a root handle
with raw data name "App", children [] and no updater emits a root event
with the allocated identity, then a mount event whose payload has that
id, name "App", children [] and no raw type reference or updater object —
but whose canUpdate field is undefined (the field is only the boolean
false when an updater object is present without a forceUpdate slot). -/
theorem C5_amended :
    (addRoot initialAgent 7 (Handle.obj 0)).2 = [Event.root (Handle.tok 0)] ∧
    (onMounted (addRoot initialAgent 7 (Handle.obj 0)).1 7 (Handle.obj 0) dApp).2
      = [Event.mount pApp] ∧
    pApp.id = Handle.tok 0 ∧
    pApp.name = Prim.str "App" ∧
    pApp.children = some [] ∧
    pApp.type = none ∧
    pApp.updater = none ∧
    pApp.canUpdate = Prim.undef ∧
    canUpdateOf (some ⟨true, true, true, false⟩) = Prim.bool false :=
  ⟨rfl, rfl, rfl, rfl, rfl, rfl, rfl, rfl, rfl⟩

theorem renderersKnown_lookup {s : AgentState} (hR : RenderersKnown s)
    {id : Handle} {rid : Nat} (h : alookup s.renderers id = some rid) :
    (alookup s.reactInternals rid).isSome = true := by
  have := List.all_eq_true.mp hR (id, rid) (alookup_mem h)
  simpa using this

theorem getNodeForID_ok {s : AgentState} (hR : RenderersKnown s) (id : Handle) :
    getNodeForID s id = Except.ok (nodeOf s id) := by
  cases h1 : alookup s.reactElements id with
  | none => simp [getNodeForID, nodeOf, h1]
  | some comp =>
      cases h2 : alookup s.renderers id with
      | none => simp [getNodeForID, nodeOf, h1, h2]
      | some rid =>
          cases h3 : alookup s.reactInternals rid with
          | none =>
              have hx := renderersKnown_lookup hR h2
              rw [h3] at hx
              simp at hx
          | some hh =>
              cases h4 : hh.getNativeFromReactElement with
              | none => simp [getNodeForID, nodeOf, h1, h2, h3, h4]
              | some f => simp [getNodeForID, nodeOf, h1, h2, h3, h4]

theorem collectNodes_ok {s : AgentState} (hR : RenderersKnown s)
    (ids : List Handle) :
    collectNodes s ids = Except.ok (ids.filterMap (nodeOf s)) := by
  induction ids with
  | nil => rfl
  | cons id rest ih =>
      simp only [collectNodes, getNodeForID_ok hR, List.filterMap_cons]
      cases h : nodeOf s id with
      | none => simpa using ih
      | some n => simp [ih]

/-- Claim C6: `highlightMany` emits no event on an empty or entirely
unresolvable id list, and exactly one event carrying the resolved nodes
in input order when at least one id resolves; `highlight` emits an event
(with the node, the display name and props) only when both a stored
snapshot and a native node exist, and otherwise emits nothing and does
not throw.  The hypothesis `RenderersKnown` states that every attributed
renderer was registered via `setReactInternals`, which is the only way
`getNodeForID` can avoid a TypeError. -/
theorem C6_highlight_contract (s : AgentState) (hR : RenderersKnown s) :
    highlightMany s [] = Except.ok [] ∧
    (∀ ids : List Handle, (∀ id ∈ ids, nodeOf s id = none) →
       highlightMany s ids = Except.ok []) ∧
    (∀ ids : List Handle, ids.filterMap (nodeOf s) ≠ [] →
       highlightMany s ids =
         Except.ok [Event.highlightMany (ids.filterMap (nodeOf s))]) ∧
    (∀ id : Handle, highlight s id =
       Except.ok (match alookup s.elementData id, nodeOf s id with
                  | some d, some n => [Event.highlight n d.name d.props]
                  | _, _ => [])) := by
  refine ⟨rfl, fun ids hall => ?_, fun ids hne => ?_, fun id => ?_⟩
  · have hnil : ids.filterMap (nodeOf s) = [] := by
      refine List.filterMap_eq_nil_iff.mpr hall
    simp [highlightMany, collectNodes_ok hR, hnil]
  · cases hns : ids.filterMap (nodeOf s) with
    | nil => exact absurd hns hne
    | cons n ns => simp [highlightMany, collectNodes_ok hR, hns]
  · simp only [highlight, getNodeForID_ok hR]
    cases alookup s.elementData id <;> cases nodeOf s id <;> rfl

/-- Producer helpers for the C6 witness: native lookup resolves component
42 to native node 99. -/
def helpersC6 : Helpers :=
  ⟨some (fun c => if c = 42 then some 99 else none), none⟩

/-- Snapshot data for the C6 witness. -/
def dC6 : DataType :=
  ⟨Prim.str "C", JVal.undef, JVal.undef, JVal.undef, none, none, none, none⟩

/-- A concrete agent state with one mounted component (identity token 0,
component reference 42, renderer 1) whose renderer is registered. -/
def sC6 : AgentState :=
  ⟨[(Handle.tok 0, 42)], [(42, Handle.tok 0)], [(Handle.tok 0, 1)],
   [(Handle.tok 0, dC6)], [], [(1, helpersC6)], 1, false, none⟩

/-- Witness for C6 at a concrete state: empty input emits nothing, an
unresolvable id emits nothing, a mixed list emits one event with just the
resolved node, and highlight emits the node with name and props. -/
theorem C6_witness :
    renderersKnownB sC6 = true ∧
    highlightMany sC6 [] = Except.ok [] ∧
    highlightMany sC6 [Handle.tok 5] = Except.ok [] ∧
    highlightMany sC6 [Handle.tok 0, Handle.tok 5] =
      Except.ok [Event.highlightMany [99]] ∧
    highlight sC6 (Handle.tok 0) =
      Except.ok [Event.highlight 99 (Prim.str "C") JVal.undef] :=
  ⟨rfl,
   (C6_highlight_contract sC6 rfl).1,
   (C6_highlight_contract sC6 rfl).2.1 [Handle.tok 5] (by decide),
   (C6_highlight_contract sC6 rfl).2.2.1 [Handle.tok 0, Handle.tok 5] (by decide),
   (C6_highlight_contract sC6 rfl).2.2.2 (Handle.tok 0)⟩

/-- Claim C7: each of the setProps/setState/setContext commands never
mutates the agent state (and, being a total function of the embedding,
never throws); when the target snapshot or its matching updater slot is
missing it only logs a warning; when the matching slot is present the
updater is invoked with exactly the given path and value. -/
theorem C7_set_commands (s : AgentState) (id : Handle) (path : List String)
    (value : JVal) :
    ((setPropsCmd s id path value).1 = s ∧
     (setStateCmd s id path value).1 = s ∧
     (setContextCmd s id path value).1 = s) ∧
    (alookup s.elementData id = none →
       (setPropsCmd s id path value).2 = [Event.warn WarnMsg.setPropsUnsupported] ∧
       (setStateCmd s id path value).2 = [Event.warn WarnMsg.setStateUnsupported] ∧
       (setContextCmd s id path value).2 = [Event.warn WarnMsg.setStateUnsupported]) ∧
    (∀ d : DataType, alookup s.elementData id = some d →
       (d.updater = none →
          (setPropsCmd s id path value).2 = [Event.warn WarnMsg.setPropsUnsupported] ∧
          (setStateCmd s id path value).2 = [Event.warn WarnMsg.setStateUnsupported] ∧
          (setContextCmd s id path value).2 = [Event.warn WarnMsg.setStateUnsupported]) ∧
       (∀ u : Updater, d.updater = some u →
          ((u.setInProps = true →
              (setPropsCmd s id path value).2 = [Event.callSetInProps path value]) ∧
           (u.setInProps = false →
              (setPropsCmd s id path value).2 =
                [Event.warn WarnMsg.setPropsUnsupported])) ∧
          ((u.setInState = true →
              (setStateCmd s id path value).2 = [Event.callSetInState path value]) ∧
           (u.setInState = false →
              (setStateCmd s id path value).2 =
                [Event.warn WarnMsg.setStateUnsupported])) ∧
          ((u.setInContext = true →
              (setContextCmd s id path value).2 = [Event.callSetInContext path value]) ∧
           (u.setInContext = false →
              (setContextCmd s id path value).2 =
                [Event.warn WarnMsg.setStateUnsupported])))) := by
  refine ⟨⟨?_, ?_, ?_⟩, fun hnone => ?_, fun d hd => ⟨fun hu => ?_, fun u hu => ?_⟩⟩
  · cases h1 : alookup s.elementData id with
    | none => simp [setPropsCmd, h1]
    | some d =>
        cases h2 : d.updater with
        | none => simp [setPropsCmd, h1, h2]
        | some u => cases hb : u.setInProps <;> simp [setPropsCmd, h1, h2, hb]
  · cases h1 : alookup s.elementData id with
    | none => simp [setStateCmd, h1]
    | some d =>
        cases h2 : d.updater with
        | none => simp [setStateCmd, h1, h2]
        | some u => cases hb : u.setInState <;> simp [setStateCmd, h1, h2, hb]
  · cases h1 : alookup s.elementData id with
    | none => simp [setContextCmd, h1]
    | some d =>
        cases h2 : d.updater with
        | none => simp [setContextCmd, h1, h2]
        | some u => cases hb : u.setInContext <;> simp [setContextCmd, h1, h2, hb]
  · simp [setPropsCmd, setStateCmd, setContextCmd, hnone]
  · simp [setPropsCmd, setStateCmd, setContextCmd, hd, hu]
  · refine ⟨⟨fun hb => ?_, fun hb => ?_⟩, ⟨fun hb => ?_, fun hb => ?_⟩,
      ⟨fun hb => ?_, fun hb => ?_⟩⟩ <;>
      simp [setPropsCmd, setStateCmd, setContextCmd, hd, hu, hb]

/-- Snapshot with a full updater for the C7 witness. -/
def dC7 : DataType :=
  ⟨Prim.str "P", JVal.undef, JVal.undef, JVal.undef, none, none,
   some ⟨true, false, true, true⟩, none⟩

/-- A state with one snapshot whose updater supports setInProps and
setInContext but not setInState. -/
def sC7 : AgentState :=
  ⟨[], [], [], [(Handle.tok 0, dC7)], [], [], 1, false, none⟩

/-- Witness for C7 at a concrete state. -/
theorem C7_witness :
    (setPropsCmd sC7 (Handle.tok 0) ["a"] (JVal.vnum 1)).1 = sC7 ∧
    (setPropsCmd sC7 (Handle.tok 0) ["a"] (JVal.vnum 1)).2 =
      [Event.callSetInProps ["a"] (JVal.vnum 1)] ∧
    (setStateCmd sC7 (Handle.tok 0) ["a"] (JVal.vnum 1)).2 =
      [Event.warn WarnMsg.setStateUnsupported] ∧
    (setPropsCmd sC7 (Handle.tok 9) ["a"] (JVal.vnum 1)).2 =
      [Event.warn WarnMsg.setPropsUnsupported] :=
  ⟨(C7_set_commands sC7 (Handle.tok 0) ["a"] (JVal.vnum 1)).1.1,
   ((((C7_set_commands sC7 (Handle.tok 0) ["a"] (JVal.vnum 1)).2.2 dC7 rfl).2
      ⟨true, false, true, true⟩ rfl).1).1 rfl,
   ((((C7_set_commands sC7 (Handle.tok 0) ["a"] (JVal.vnum 1)).2.2 dC7 rfl).2
      ⟨true, false, true, true⟩ rfl).2.1).2 rfl,
   ((C7_set_commands sC7 (Handle.tok 9) ["a"] (JVal.vnum 1)).2.1 rfl).1⟩

theorem tryProducers_misses {pre : List (Nat × Helpers)} {node : Nat}
    (h : ∀ q ∈ pre, missesB q.2 node = true) (rest : List (Nat × Helpers)) :
    tryProducers (pre ++ rest) node = tryProducers rest node := by
  induction pre with
  | nil => rfl
  | cons p t ih =>
      have hp := h p (List.mem_cons_self p t)
      have ht : ∀ q ∈ t, missesB q.2 node = true :=
        fun q hq => h q (List.mem_cons_of_mem _ hq)
      cases hres : helperRes p.2 node with
      | throws =>
          simp only [List.cons_append, tryProducers, hres]
          exact ih ht
      | ret c =>
          simp only [missesB, hres, Bool.not_eq_true'] at hp
          simp only [List.cons_append, tryProducers, hres, hp]
          simp only [Bool.false_eq_true, if_false]
          exact ih ht

/-- Claim C8: `getIDForNode` tries the registered producers in
registration order; every producer before the first one that returns a
truthy component is skipped whether it threw or returned a falsy value
(`missesB`), the first truthy component is converted through `getId` and
returned, and if every producer misses the result is null with the state
untouched. -/
theorem C8_getIDForNode_order (s : AgentState) (node : Nat) :
    (∀ (pre post : List (Nat × Helpers)) (rid : Nat) (hh : Helpers) (c : Handle),
       s.reactInternals = pre ++ (rid, hh) :: post →
       (∀ q ∈ pre, missesB q.2 node = true) →
       helperRes hh node = PRes.ret c → c.truthy = true →
       getIDForNode s node = (some (getId s c).1, (getId s c).2)) ∧
    ((∀ q ∈ s.reactInternals, missesB q.2 node = true) →
       getIDForNode s node = (none, s)) := by
  constructor
  · intro pre post rid hh c hsplit hmiss hres htr
    have htp : tryProducers s.reactInternals node = some c := by
      rw [hsplit, tryProducers_misses hmiss]
      simp [tryProducers, hres, htr]
    simp [getIDForNode, htp]
  · intro hall
    have htp : tryProducers s.reactInternals node = none := by
      simpa using tryProducers_misses hall []
    simp [getIDForNode, htp]

/-- A producer with no `getReactElementFromNative` function: the call
expression throws a TypeError, which `getIDForNode` swallows. -/
def helperThrow : Helpers := ⟨none, none⟩

/-- A producer that recognises native node 5 as component 3 and answers
null for everything else. -/
def helperHit : Helpers :=
  ⟨none, some (fun n => if n = 5 then PRes.ret (Handle.obj 3)
                        else PRes.ret (Handle.prim Prim.null))⟩

/-- A state with a throwing producer registered before a resolving one. -/
def sC8 : AgentState :=
  ⟨[], [], [], [], [], [(1, helperThrow), (2, helperHit)], 0, false, none⟩

/-- Witness for C8: the throwing first producer is skipped and node 5
resolves through the second producer; node 6 resolves nowhere and yields
null. -/
theorem C8_witness :
    getIDForNode sC8 5 = (some (getId sC8 (Handle.obj 3)).1, (getId sC8 (Handle.obj 3)).2) ∧
    getIDForNode sC8 6 = (none, sC8) :=
  ⟨(C8_getIDForNode_order sC8 5).1 [(1, helperThrow)] [] 2 helperHit (Handle.obj 3)
     rfl (by decide) rfl rfl,
   (C8_getIDForNode_order sC8 6).2 (by decide)⟩

/-- Claim C9: the scroll debounce is single-flight.  From a quiescent
world (flag clear, no pending frame callback) the first scroll
notification sets the flag and schedules exactly one callback; any number
of further notifications before the frame fires change nothing; when the
frame fires, exactly one refreshMultiOverlay is emitted and the flag is
cleared with an empty queue. -/
theorem C9_scroll_debounce (w : ScrollWorld) (hflag : w.agent.scrollUpdate = false)
    (hp : w.pending = 0) (n : Nat) :
    (scrollNotify w).agent.scrollUpdate = true ∧
    (scrollNotify w).pending = 1 ∧
    scrollNotify^[n] (scrollNotify w) = scrollNotify w ∧
    (fireFrame (scrollNotify^[n] (scrollNotify w))).2 = [Event.refreshMultiOverlay] ∧
    (fireFrame (scrollNotify^[n] (scrollNotify w))).1.agent.scrollUpdate = false ∧
    (fireFrame (scrollNotify^[n] (scrollNotify w))).1.pending = 0 := by
  have h1 : scrollNotify w = ⟨{ w.agent with scrollUpdate := true }, 1⟩ := by
    simp [scrollNotify, agentOnScroll, hflag, hp]
  have hfix : scrollNotify (scrollNotify w) = scrollNotify w := by
    rw [h1]
    simp [scrollNotify, agentOnScroll]
  have hiter : scrollNotify^[n] (scrollNotify w) = scrollNotify w :=
    Function.iterate_fixed hfix n
  refine ⟨by rw [h1], by rw [h1], hiter, ?_, ?_, ?_⟩ <;>
    rw [hiter, h1] <;> simp [fireFrame, runFrames, agentUpdateScroll]

/-- Witness for C9: three extra scroll notifications inside the frame
still produce exactly one refresh. -/
theorem C9_witness :
    (scrollNotify ⟨initialAgent, 0⟩).agent.scrollUpdate = true ∧
    (scrollNotify ⟨initialAgent, 0⟩).pending = 1 ∧
    scrollNotify^[3] (scrollNotify ⟨initialAgent, 0⟩) = scrollNotify ⟨initialAgent, 0⟩ ∧
    (fireFrame (scrollNotify^[3] (scrollNotify ⟨initialAgent, 0⟩))).2 =
      [Event.refreshMultiOverlay] ∧
    (fireFrame (scrollNotify^[3] (scrollNotify ⟨initialAgent, 0⟩))).1.agent.scrollUpdate
      = false ∧
    (fireFrame (scrollNotify^[3] (scrollNotify ⟨initialAgent, 0⟩))).1.pending = 0 :=
  C9_scroll_debounce ⟨initialAgent, 0⟩ rfl rfl 3

theorem jsGetE_ok {base : JVal} (ht : base.truthy = true) (a : String) :
    jsGetE base a = Except.ok (jsGetTotal base a) := by
  cases base with
  | undef => simp [JVal.truthy] at ht
  | null => simp [JVal.truthy] at ht
  | vbool b => rfl
  | vnum n => rfl
  | vstr s => rfl
  | vobj fs => rfl
  | varr xs => rfl

theorem getInStepE_ok (base : JVal) (a : String) :
    getInStepE (Except.ok base) a = Except.ok (getInStep base a) := by
  cases ht : base.truthy with
  | true => simp [getInStepE, getInStep, ht, jsGetE_ok ht]
  | false => simp [getInStepE, getInStep, ht]

theorem getInE_ok (base : JVal) (path : List String) :
    getInE base path = Except.ok (getIn base path) := by
  induction path generalizing base with
  | nil => rfl
  | cons a ps ih =>
      show List.foldl getInStepE (getInStepE (Except.ok base) a) ps = _
      rw [getInStepE_ok]
      exact ih (getInStep base a)

theorem getIn_null (ps : List String) : getIn JVal.null ps = JVal.null := by
  induction ps with
  | nil => rfl
  | cons a qs ih =>
      show List.foldl getInStep (getInStep JVal.null a) qs = JVal.null
      have h1 : getInStep JVal.null a = JVal.null := rfl
      rw [h1]
      exact ih

theorem getIn_falsy {v : JVal} (hv : v.truthy = false) {ps : List String}
    (hne : ps ≠ []) : getIn v ps = JVal.null := by
  cases ps with
  | nil => exact absurd rfl hne
  | cons a qs =>
      show List.foldl getInStep (getInStep v a) qs = JVal.null
      have h1 : getInStep v a = JVal.null := by simp [getInStep, hv]
      rw [h1]
      exact getIn_null qs

/-- Claim C10: `makeGlobal` with an unknown id is a completely silent
no-op (state unchanged, nothing written, nothing logged); with a stored
snapshot and an array path the walk over the snapshot never throws (the
exception-explicit walk returns ok), the global slot receives the walked
value and one console line is printed; and any falsy intermediate value
(missing attribute, i.e. undefined, or null) turns the rest of the walk
into null rather than an exception. -/
theorem C10_makeGlobal (s : AgentState) (id : Handle) (path : PathArg) :
    (alookup s.elementData id = none → makeGlobal s id path = (s, [])) ∧
    (∀ (d : DataType) (ps : List String),
       alookup s.elementData id = some d → path = PathArg.arr ps →
       getInE (dataToJVal d) ps = Except.ok (getIn (dataToJVal d) ps) ∧
       makeGlobal s id path =
         ({ s with globalTmp := some (getIn (dataToJVal d) ps) },
          [Event.consoleLog])) ∧
    (∀ (v : JVal) (ps : List String), v.truthy = false → ps ≠ [] →
       getIn v ps = JVal.null) := by
  refine ⟨fun hnone => by simp [makeGlobal, hnone],
    fun d ps hd hpath => ⟨getInE_ok _ _, ?_⟩,
    fun v ps hv hne => getIn_falsy hv hne⟩
  subst hpath
  simp [makeGlobal, hd]

/-- Snapshot data for the C10 witness, with a one-field props object. -/
def dC10 : DataType :=
  ⟨Prim.str "G", JVal.vobj [("a", JVal.vnum 7)], JVal.undef, JVal.undef,
   none, none, none, none⟩

/-- A state holding only the C10 snapshot under token 0. -/
def sC10 : AgentState :=
  ⟨[], [], [], [(Handle.tok 0, dC10)], [], [], 1, false, none⟩

/-- Witness for C10 at concrete inputs: unknown id is silent; a real walk
sets the slot and logs. -/
theorem C10_witness :
    makeGlobal sC10 (Handle.tok 5) (PathArg.arr ["props"]) = (sC10, []) ∧
    (getInE (dataToJVal dC10) ["props", "a"] =
       Except.ok (getIn (dataToJVal dC10) ["props", "a"]) ∧
     makeGlobal sC10 (Handle.tok 0) (PathArg.arr ["props", "a"]) =
       ({ sC10 with globalTmp := some (getIn (dataToJVal dC10) ["props", "a"]) },
        [Event.consoleLog])) :=
  ⟨(C10_makeGlobal sC10 (Handle.tok 5) (PathArg.arr ["props"])).1 rfl,
   (C10_makeGlobal sC10 (Handle.tok 0) (PathArg.arr ["props", "a"])).2.1 dC10
     ["props", "a"] rfl rfl⟩

end Devtools
